import Mathlib

/-!
Verification development for the goai-kit conversation driver (`ask` in the
request file), its hook pipeline (`client.go`), and the node-graph engine
(`NewGraph` / `Graph.run` in the graph file).

The Go source is shallowly embedded:
* the OpenAI transport (`client.client.Chat.Completions.New`) is a parameter,
  modelled as a function from the global transport-call index to a result;
* tool handlers (`Tool.Run`, i.e. argument decode + runner, already fused in
  the source's `AITool.Run(ctx, argsJson)`) are functions from the raw
  argument text to a result or an error string;
* the concurrent tool round (goroutines + WaitGroup + mutex-guarded append)
  is modelled sequentially in tool-call order: the source only joins the
  round and appends each result under one lock, so the observable data
  (which messages are appended, which handlers run) is order-independent;
* goroutine state (message list, transport-call counter) is threaded
  explicitly through a `LoopState`, and the `goto aa` loop is modelled as a
  fuel-bounded recursion (`askLoop`); fuel bounds the number of model turns.
Instrumentation fields (`sent`, `afterLog`, `invocations`) record what the
source sends to the transport, each run of the after-hook stage with the
pair it receives, and each tool-handler invocation; they do not influence
control flow.
-/

namespace GoaiKit

/-- A tool-call request inside an assistant message
(openai `ToolCall`: id, function name, raw JSON argument text). -/
structure ToolCall where
  id : String
  name : String
  arguments : String
deriving Repr, DecidableEq

/-- The message part of one response choice: assistant content plus the
tool-call requests it carries. -/
structure AssistantMsg where
  content : String
  toolCalls : List ToolCall
deriving Repr, DecidableEq

/-- One entry of the conversation message sequence
(`openai.ChatCompletionMessageParamUnion`). -/
inductive Message where
  | system (content : String)
  | user (content : String)
  | assistant (msg : AssistantMsg)
  | tool (content : String) (toolCallId : String)
deriving Repr, DecidableEq

/-- A chat completion response: the list of choices, each carrying its
message (`chatCompletion.Choices[i].Message`). -/
structure ChatCompletion where
  choices : List AssistantMsg
deriving Repr, DecidableEq

/-- A registered tool handler: `AITool.Run(ctx, argsJson)` fused
(JSON argument decode + runner + `json.Marshal` of the result);
the success payload is the serialized tool-result content. -/
def ToolFn : Type := String → Except String String

/-- The request parameters relevant to the claims
(`openai.ChatCompletionNewParams`): message sequence, model id, and the
optional strict JSON-schema response format.  Sampling fields, file
attachments and tool declarations are carried by the source's params too
but are not inspected by any claim, so they are omitted here. -/
structure Params where
  messages : List Message
  model : String
  responseFormat : Option String
deriving Repr, DecidableEq

/-- A before-request hook: `BeforeRequestHook`, `params -> params`. -/
def BeforeHook : Type := Params → Params

/-- An after-request hook: `AfterRequestHook`,
`(response, error) -> (response, error)`; `none` models Go's nil. -/
def AfterHook : Type := Option ChatCompletion × Option String → Option ChatCompletion × Option String

/-- Client-level configuration (`Config`): default model and the two hook
lists, in registration order. -/
structure ClientCfg where
  defaultModel : String := ""
  beforeRequest : List BeforeHook := []
  afterRequest : List AfterHook := []

/-- Per-call configuration (`AskConfig`) restricted to the fields the claims
touch; `retries := 3` is the source's default (`AskConfig{Retries: 3}`).
`tools` is the `Tools map[string]AITool` as an association list. -/
structure AskConfig where
  prompt : String
  system : String := ""
  model : String := ""
  retries : Nat := 3
  tools : List (String × ToolFn) := []

/-- Output mode, decided once from the declared output type
(`switch any(output).(type) { case string: ... }`): free text attaches no
response format, structured mode attaches the inferred strict schema. -/
inductive OutputMode where
  | freeText
  | structured (schema : String)

/-- `applyBeforeRequestHooks` (client.go): fold the before hooks over the
params in registration order and return the modified params. -/
def applyBeforeRequestHooks (hooks : List BeforeHook) (params : Params) : Params :=
  hooks.foldl (fun p hook => hook p) params

/-- `applyAfterRequestHooks` (client.go): fold the after hooks over the
(response, error) pair in registration order. -/
def applyAfterRequestHooks (hooks : List AfterHook)
    (pair : Option ChatCompletion × Option String) : Option ChatCompletion × Option String :=
  hooks.foldl (fun p hook => hook p) pair

/-- Building the initial request params inside `ask`: optional system
message, then the user prompt; the model falls back to the client default
when unset; structured mode attaches the schema as the response format. -/
def buildParams (defaultModel : String) (cfg : AskConfig) (mode : OutputMode) : Params :=
  { messages :=
      (if cfg.system ≠ "" then [Message.system cfg.system] else []) ++
        [Message.user cfg.prompt]
    model := if cfg.model = "" then defaultModel else cfg.model
    responseFormat :=
      match mode with
      | .freeText => none
      | .structured schema => some schema }

/-- The transport: one network call of
`client.client.Chat.Completions.New`, indexed by the global count of
transport calls already made in this `ask` call. -/
def Transport : Type := Nat → Except String ChatCompletion

/-- `retry.Do(apiCallFunc, retry.Attempts(attempts), ...)`: call the
transport up to `attempts` times, stopping at the first success; returns
the result, the new transport-call index, and the send log extended with
one copy of the params per attempt made.  (retry-go's `Attempts(0)`
"retry forever" configuration is never used by the source, whose budget
defaults to 3.) -/
def retryDo (transport : Transport) (p : Params) :
    Nat → Nat → List Params → Except String ChatCompletion × Nat × List Params
  | 0, tIdx, sent => (.error "retry: zero attempts", tIdx, sent)
  | n + 1, tIdx, sent =>
    match transport tIdx with
    | .ok c => (.ok c, tIdx + 1, sent ++ [p])
    | .error e =>
      if n = 0 then (.error e, tIdx + 1, sent ++ [p])
      else retryDo transport p n (tIdx + 1) (sent ++ [p])

/-- Classified terminal errors of one `ask` call (section 7 taxonomy as the
source realizes it): the wrapped transport error carries the attempt
count from `fmt.Errorf("OpenAI API call failed after %d attempts: %w",
cfg.Retries, err)`. -/
inductive AskError where
  | transport (attempts : Nat) (msg : String)
  | noChoices
  | decode (msg : String)
deriving Repr, DecidableEq

/-- Outcome of one round of the tool loop (`if len(toolCalls) > 0` block):
`ok` carries the tool-result messages appended and the list of handler
invocations `(name, arguments)` performed; `crash` models the Go runtime
panic from calling `Run` on the nil interface that
`cfg.Tools[call.Function.Name]` yields for an unregistered name. -/
inductive RoundResult where
  | ok (msgs : List Message) (invocations : List (String × String))
  | crash

/-- One tool round, in tool-call order: for each call, look the capability
up by name (a miss dereferences a nil interface: `crash`); invoke the
handler; a failing handler is logged and its goroutine returns early, so
its tool-result message is omitted while the round continues; a
succeeding handler appends `ToolMessage(resultJson, call.ID)`. -/
def runToolRound (tools : List (String × ToolFn)) : List ToolCall → RoundResult
  | [] => .ok [] []
  | c :: rest =>
    match tools.lookup c.name with
    | none => .crash
    | some f =>
      match runToolRound tools rest with
      | .crash => .crash
      | .ok msgs invs =>
        match f c.arguments with
        | .ok resultJson =>
          .ok (Message.tool resultJson c.id :: msgs) ((c.name, c.arguments) :: invs)
        | .error _ => .ok msgs ((c.name, c.arguments) :: invs)

/-- The mutable state of the `goto aa` loop: the request params (whose
message list grows), the pending `chatCompletion` variable (kept across
turns, so a later transport failure hands the previous completion to the
after hooks), the transport-call index, and the instrumentation logs. -/
structure LoopState where
  params : Params
  lastComp : Option ChatCompletion := none
  tIdx : Nat := 0
  sent : List Params := []
  afterLog : List (Option ChatCompletion × Option String) := []
  invocations : List (String × String) := []
deriving Repr, DecidableEq

/-- Raw outcome of the turn loop before output-mode decoding. -/
inductive RawOutcome where
  | text (content : String)
  | fail (e : AskError)
  | crash
  | outOfFuel
deriving Repr, DecidableEq

/-- The `aa:` loop of `ask`: one iteration performs the retried model call,
runs the after-hook stage exactly once with the (response, error) pair it
receives (its result is discarded by the source: `_, _ = client.apply...`),
fails on a transport error (wrapped with the attempt budget) or an empty
choice list, appends the assistant message, and either finishes with the
assistant content or runs the tool round and loops. -/
def askLoop (client : ClientCfg) (cfg : AskConfig) (transport : Transport) :
    Nat → LoopState → RawOutcome × LoopState
  | 0, st => (.outOfFuel, st)
  | fuel + 1, st =>
    match retryDo transport st.params cfg.retries st.tIdx st.sent with
    | (.error e, tIdx', sent') =>
      let pair := (st.lastComp, some e)
      let _discarded := applyAfterRequestHooks client.afterRequest pair
      (.fail (.transport cfg.retries e),
        { st with tIdx := tIdx', sent := sent', afterLog := st.afterLog ++ [pair] })
    | (.ok comp, tIdx', sent') =>
      let pair := (some comp, (none : Option String))
      let _discarded := applyAfterRequestHooks client.afterRequest pair
      let st' := { st with lastComp := some comp, tIdx := tIdx', sent := sent',
                           afterLog := st.afterLog ++ [pair] }
      match comp.choices with
      | [] => (.fail .noChoices, st')
      | choice :: _ =>
        let st'' := { st' with params :=
          { st'.params with messages := st'.params.messages ++ [Message.assistant choice] } }
        match choice.toolCalls with
        | [] => (.text choice.content, st'')
        | _ :: _ =>
          match runToolRound cfg.tools choice.toolCalls with
          | .crash => (.crash, st'')
          | .ok msgs invs =>
            askLoop client cfg transport fuel
              { st'' with
                params := { st''.params with messages := st''.params.messages ++ msgs }
                invocations := st''.invocations ++ invs }

/-- The body of `ask` up to output decoding: build the params, run the
before-hook stage (whose return value the source discards at the call
site `client.applyBeforeRequestHooks(reqContext, params)`), then enter
the turn loop on the original params. -/
def askRaw (client : ClientCfg) (cfg : AskConfig) (mode : OutputMode)
    (transport : Transport) (fuel : Nat) : RawOutcome × LoopState :=
  let params := buildParams client.defaultModel cfg mode
  let _discarded := applyBeforeRequestHooks client.beforeRequest params
  askLoop client cfg transport fuel { params := params }

/-- Final result of an `ask` call as seen by the caller. -/
inductive AskResult (Output : Type) where
  | ok (out : Output)
  | err (e : AskError)
  | crash
  | outOfFuel
deriving Repr, DecidableEq

/-- `ask` for `Output = string`: free-text mode; the final branch
`return any(&chatCompletion.Choices[0].Message.Content).(*Output)` hands
back the raw assistant content with no decoding. -/
def askFreeText (client : ClientCfg) (cfg : AskConfig) (transport : Transport)
    (fuel : Nat) : AskResult String × LoopState :=
  match askRaw client cfg .freeText transport fuel with
  | (.text c, st) => (.ok c, st)
  | (.fail e, st) => (.err e, st)
  | (.crash, st) => (.crash, st)
  | (.outOfFuel, st) => (.outOfFuel, st)

/-- `ask` for a structured output type: structured mode attaches `schema`,
and the final content is decoded (`json.Unmarshal` modelled by `decode`);
a decode failure is terminal. -/
def askStructured {Output : Type} (decode : String → Except String Output)
    (schema : String) (client : ClientCfg) (cfg : AskConfig)
    (transport : Transport) (fuel : Nat) : AskResult Output × LoopState :=
  match askRaw client cfg (.structured schema) transport fuel with
  | (.text c, st) =>
    match decode c with
    | .ok o => (.ok o, st)
    | .error e => (.err (.decode e), st)
  | (.fail e, st) => (.err e, st)
  | (.crash, st) => (.crash, st)
  | (.outOfFuel, st) => (.outOfFuel, st)

/-! ## Helper lemmas about the driver loop -/

/-- Every call of the round resolves to a registered capability. -/
def allResolve (tools : List (String × ToolFn)) (calls : List ToolCall) : Prop :=
  ∀ c ∈ calls, (tools.lookup c.name).isSome

/-- Every call of the round resolves and its handler succeeds. -/
def allSucceed (tools : List (String × ToolFn)) (calls : List ToolCall) : Prop :=
  ∀ c ∈ calls, ∃ f r, tools.lookup c.name = some f ∧ f c.arguments = .ok r

/-- The tool-result message a call contributes, if any: `none` when the
capability is missing or its handler fails. -/
def roundMsgOf (tools : List (String × ToolFn)) (c : ToolCall) : Option Message :=
  match tools.lookup c.name with
  | some f =>
    match f c.arguments with
    | .ok r => some (Message.tool r c.id)
    | .error _ => none
  | none => none

/-- The tool-result message of a call whose handler succeeds. -/
def roundMessage (tools : List (String × ToolFn)) (c : ToolCall) : Message :=
  match tools.lookup c.name with
  | some f =>
    match f c.arguments with
    | .ok r => Message.tool r c.id
    | .error _ => Message.tool "" c.id
  | none => Message.tool "" c.id

theorem runToolRound_all_resolve (tools : List (String × ToolFn))
    (calls : List ToolCall) (h : allResolve tools calls) :
    runToolRound tools calls =
      .ok (calls.filterMap (roundMsgOf tools)) (calls.map fun c => (c.name, c.arguments)) := by
  induction calls with
  | nil => rfl
  | cons c rest ih =>
    have hc : (tools.lookup c.name).isSome := h c (List.mem_cons_self c rest)
    obtain ⟨f, hf⟩ := Option.isSome_iff_exists.mp hc
    have hrest : allResolve tools rest := fun x hx => h x (List.mem_cons_of_mem c hx)
    rw [runToolRound, hf, ih hrest]
    cases hfc : f c.arguments with
    | ok r => simp [List.filterMap_cons, roundMsgOf, hf, hfc]
    | error e => simp [List.filterMap_cons, roundMsgOf, hf, hfc]

theorem filterMap_roundMsgOf_of_allSucceed (tools : List (String × ToolFn))
    (calls : List ToolCall) (h : allSucceed tools calls) :
    calls.filterMap (roundMsgOf tools) = calls.map (roundMessage tools) := by
  induction calls with
  | nil => rfl
  | cons c rest ih =>
    obtain ⟨f, r, hf, hok⟩ := h c (List.mem_cons_self c rest)
    have hrest : allSucceed tools rest := fun x hx => h x (List.mem_cons_of_mem c hx)
    simp only [List.filterMap_cons, List.map_cons, roundMsgOf, roundMessage, hf, hok, ih hrest]

theorem runToolRound_all_succeed (tools : List (String × ToolFn))
    (calls : List ToolCall) (h : allSucceed tools calls) :
    runToolRound tools calls =
      .ok (calls.map (roundMessage tools)) (calls.map fun c => (c.name, c.arguments)) := by
  have hres : allResolve tools calls := by
    intro c hc
    obtain ⟨f, r, hf, _⟩ := h c hc
    exact Option.isSome_iff_exists.mpr ⟨f, hf⟩
  rw [runToolRound_all_resolve tools calls hres,
    filterMap_roundMsgOf_of_allSucceed tools calls h]

theorem retryDo_first_ok (transport : Transport) (p : Params) (r tIdx : Nat)
    (sent : List Params) (c : ChatCompletion) (h : transport tIdx = .ok c) :
    retryDo transport p (r + 1) tIdx sent = (.ok c, tIdx + 1, sent ++ [p]) := by
  rw [retryDo, h]

/-- One loop iteration in which the model turn succeeds at the first
attempt and returns a choice with a nonempty tool round: the assistant
message and the round's tool-result messages are appended, the round's
handler invocations are recorded, and the loop recurses into the next
model turn. -/
theorem askLoop_step_round (client : ClientCfg) (cfg : AskConfig) (transport : Transport)
    (fuel : Nat) (st : LoopState) (r : Nat) (comp : ChatCompletion)
    (choice : AssistantMsg) (rest : List AssistantMsg)
    (msgs : List Message) (invs : List (String × String))
    (hr : cfg.retries = r + 1)
    (ht : transport st.tIdx = .ok comp)
    (hc : comp.choices = choice :: rest)
    (hk : choice.toolCalls ≠ [])
    (hround : runToolRound cfg.tools choice.toolCalls = .ok msgs invs) :
    askLoop client cfg transport (fuel + 1) st =
      askLoop client cfg transport fuel
        { st with
          params := { st.params with
            messages := st.params.messages ++ [Message.assistant choice] ++ msgs }
          lastComp := some comp
          tIdx := st.tIdx + 1
          sent := st.sent ++ [st.params]
          afterLog := st.afterLog ++ [(some comp, none)]
          invocations := st.invocations ++ invs } := by
  obtain ⟨c0, calls, hcc⟩ := List.exists_cons_of_ne_nil hk
  rw [askLoop, hr, retryDo_first_ok transport st.params r st.tIdx st.sent comp ht]
  rw [hcc] at hround
  simp only [hc, hcc, hround, List.append_assoc]

/-- One loop iteration in which the model turn succeeds at the first
attempt and returns a choice with no tool calls: the loop finishes with
the raw assistant content after appending the assistant message. -/
theorem askLoop_step_text (client : ClientCfg) (cfg : AskConfig) (transport : Transport)
    (fuel : Nat) (st : LoopState) (r : Nat) (comp : ChatCompletion)
    (choice : AssistantMsg) (rest : List AssistantMsg)
    (hr : cfg.retries = r + 1)
    (ht : transport st.tIdx = .ok comp)
    (hc : comp.choices = choice :: rest)
    (hnt : choice.toolCalls = []) :
    askLoop client cfg transport (fuel + 1) st =
      (.text choice.content,
        { st with
          params := { st.params with
            messages := st.params.messages ++ [Message.assistant choice] }
          lastComp := some comp
          tIdx := st.tIdx + 1
          sent := st.sent ++ [st.params]
          afterLog := st.afterLog ++ [(some comp, none)] }) := by
  rw [askLoop, hr, retryDo_first_ok transport st.params r st.tIdx st.sent comp ht]
  simp only [hc, hnt]

/-! ## Concrete scenarios used by counterexamples and witnesses -/

/-- A completion whose single choice requests one call of tool `t`. -/
def compToolT : ChatCompletion :=
  ⟨[⟨"", [⟨"call1", "t", "argtext"⟩]⟩]⟩

/-- A completion whose single choice is plain content with no tool calls. -/
def compDone : ChatCompletion := ⟨[⟨"done", []⟩]⟩

/-- A tool handler that always fails. -/
def toolFailT : ToolFn := fun _ => .error "boom"

/-- A tool handler that succeeds, echoing its argument text. -/
def toolOkT : ToolFn := fun s => .ok (String.append "ok:" s)

/-- Ask configuration registering only the failing tool `t`. -/
def cfgToolFail : AskConfig := { prompt := "p", tools := [("t", toolFailT)] }

/-- Ask configuration registering only the succeeding tool `t`. -/
def cfgToolOk : AskConfig := { prompt := "p", tools := [("t", toolOkT)] }

/-- Transport: first turn requests the tool round, second turn answers. -/
def trToolTurn : Transport := fun n => if n = 0 then .ok compToolT else .ok compDone

/-! ## Claims -/

/-- C1: in any Ask turn whose model response requests K tool calls
(K ≥ 1), all registered with succeeding handlers, the loop records exactly
one handler invocation per request (K total, in order), appends exactly
K+1 messages — the assistant message, then the K tool-result messages,
each tagged with its originating call id — and only then issues the next
model turn (the recursive `askLoop` call). -/
theorem c1_tool_round_growth (client : ClientCfg) (cfg : AskConfig)
    (transport : Transport) (fuel : Nat) (st : LoopState) (r : Nat)
    (comp : ChatCompletion) (choice : AssistantMsg) (rest : List AssistantMsg)
    (hr : cfg.retries = r + 1)
    (ht : transport st.tIdx = .ok comp)
    (hc : comp.choices = choice :: rest)
    (hk : choice.toolCalls ≠ [])
    (hs : allSucceed cfg.tools choice.toolCalls) :
    askLoop client cfg transport (fuel + 1) st =
      askLoop client cfg transport fuel
        { st with
          params := { st.params with
            messages := st.params.messages ++ [Message.assistant choice] ++
              choice.toolCalls.map (roundMessage cfg.tools) }
          lastComp := some comp
          tIdx := st.tIdx + 1
          sent := st.sent ++ [st.params]
          afterLog := st.afterLog ++ [(some comp, none)]
          invocations := st.invocations ++
            choice.toolCalls.map (fun c => (c.name, c.arguments)) } ∧
    (choice.toolCalls.map (fun c => (c.name, c.arguments))).length =
      choice.toolCalls.length ∧
    ([Message.assistant choice] ++
      choice.toolCalls.map (roundMessage cfg.tools)).length =
      choice.toolCalls.length + 1 ∧
    ∀ c ∈ choice.toolCalls, ∃ content,
      roundMessage cfg.tools c = Message.tool content c.id := by
  refine ⟨askLoop_step_round client cfg transport fuel st r comp choice rest _ _
      hr ht hc hk (runToolRound_all_succeed cfg.tools choice.toolCalls hs),
    by simp, by simp, ?_⟩
  intro c hcmem
  obtain ⟨f, res, hf, hok⟩ := hs c hcmem
  exact ⟨res, by simp only [roundMessage, hf, hok]⟩

/-- Two succeeding tools `a` and `b` for the C1 witness. -/
def cfgTwoTools : AskConfig :=
  { prompt := "p",
    tools := [("a", fun s => .ok (String.append "ra:" s)),
              ("b", fun s => .ok (String.append "rb:" s))] }

/-- A completion requesting one call of each of `a` and `b`. -/
def compTwoCalls : ChatCompletion :=
  ⟨[⟨"", [⟨"id1", "a", "x"⟩, ⟨"id2", "b", "y"⟩]⟩]⟩

/-- Transport for the C1 witness. -/
def trTwoCalls : Transport := fun n => if n = 0 then .ok compTwoCalls else .ok compDone

/-- The built params of the witness scenarios with prompt `p`. -/
def pPromptP : Params := { messages := [Message.user "p"], model := "", responseFormat := none }

theorem c1_witness :
    askLoop {} cfgTwoTools trTwoCalls (0 + 1) { params := pPromptP } =
      askLoop {} cfgTwoTools trTwoCalls 0
        { params := { pPromptP with messages :=
            [Message.user "p", Message.assistant ⟨"", [⟨"id1", "a", "x"⟩, ⟨"id2", "b", "y"⟩]⟩,
             Message.tool "ra:x" "id1", Message.tool "rb:y" "id2"] }
          lastComp := some compTwoCalls
          tIdx := 1
          sent := [pPromptP]
          afterLog := [(some compTwoCalls, none)]
          invocations := [("a", "x"), ("b", "y")] } ∧
    (2 : Nat) = 2 ∧ (3 : Nat) = 2 + 1 ∧
    ∀ c ∈ (⟨"", [⟨"id1", "a", "x"⟩, ⟨"id2", "b", "y"⟩]⟩ : AssistantMsg).toolCalls,
      ∃ content, roundMessage cfgTwoTools.tools c = Message.tool content c.id :=
  c1_tool_round_growth {} cfgTwoTools trTwoCalls 0 { params := pPromptP } 2
    compTwoCalls ⟨"", [⟨"id1", "a", "x"⟩, ⟨"id2", "b", "y"⟩]⟩ [] rfl rfl rfl
    (by decide)
    (by
      intro c hcmem
      simp only [List.mem_cons, List.not_mem_nil, or_false] at hcmem
      rcases hcmem with rfl | rfl
      · exact ⟨_, _, rfl, rfl⟩
      · exact ⟨_, _, rfl, rfl⟩)

/-- C2 counterexample: the single tool call's handler fails, yet the Ask
call does not fail — the driver issues another model turn and returns that
turn's content; the failed call's tool-result message is simply missing
from the sequence while its handler invocation did happen. -/
theorem c2_counterexample :
    (askFreeText {} cfgToolFail trToolTurn 5).1 = .ok "done" ∧
    (askFreeText {} cfgToolFail trToolTurn 5).2.params.messages =
      [Message.user "p",
       Message.assistant ⟨"", [⟨"call1", "t", "argtext"⟩]⟩,
       Message.assistant ⟨"done", []⟩] ∧
    (askFreeText {} cfgToolFail trToolTurn 5).2.invocations = [("t", "argtext")] :=
  ⟨rfl, rfl, rfl⟩

/-- C2 (amended): a failing tool handler does not abort the Ask call: in a
round whose calls all resolve to registered capabilities, every handler is
invoked, only the succeeding calls contribute tool-result messages, the
failures are dropped (logged in the source, never returned), and the
driver proceeds to the next model turn; the call's outcome is whatever the
subsequent turns produce. -/
theorem c2_amended_tool_failure_continues (client : ClientCfg) (cfg : AskConfig)
    (transport : Transport) (fuel : Nat) (st : LoopState) (r : Nat)
    (comp : ChatCompletion) (choice : AssistantMsg) (rest : List AssistantMsg)
    (hr : cfg.retries = r + 1)
    (ht : transport st.tIdx = .ok comp)
    (hc : comp.choices = choice :: rest)
    (hk : choice.toolCalls ≠ [])
    (hres : allResolve cfg.tools choice.toolCalls) :
    askLoop client cfg transport (fuel + 1) st =
      askLoop client cfg transport fuel
        { st with
          params := { st.params with
            messages := st.params.messages ++ [Message.assistant choice] ++
              choice.toolCalls.filterMap (roundMsgOf cfg.tools) }
          lastComp := some comp
          tIdx := st.tIdx + 1
          sent := st.sent ++ [st.params]
          afterLog := st.afterLog ++ [(some comp, none)]
          invocations := st.invocations ++
            choice.toolCalls.map (fun c => (c.name, c.arguments)) } :=
  askLoop_step_round client cfg transport fuel st r comp choice rest _ _
    hr ht hc hk (runToolRound_all_resolve cfg.tools choice.toolCalls hres)

theorem c2_amended_witness :
    askLoop {} cfgToolFail trToolTurn (0 + 1) { params := pPromptP } =
      askLoop {} cfgToolFail trToolTurn 0
        { params := { pPromptP with messages :=
            [Message.user "p", Message.assistant ⟨"", [⟨"call1", "t", "argtext"⟩]⟩] }
          lastComp := some compToolT
          tIdx := 1
          sent := [pPromptP]
          afterLog := [(some compToolT, none)]
          invocations := [("t", "argtext")] } :=
  c2_amended_tool_failure_continues {} cfgToolFail trToolTurn 0 { params := pPromptP } 2
    compToolT ⟨"", [⟨"call1", "t", "argtext"⟩]⟩ [] rfl rfl rfl (by decide)
    (by unfold allResolve; decide)

/-- C3 counterexample: an Ask call with exactly one tool round succeeds,
yet the after-hook stage ran twice — once per model turn — not exactly
once per Ask call. -/
theorem c3_counterexample :
    (askFreeText {} cfgToolOk trToolTurn 5).1 = .ok "done" ∧
    (askFreeText {} cfgToolOk trToolTurn 5).2.afterLog =
      [(some compToolT, none), (some compDone, none)] :=
  ⟨rfl, rfl⟩

/-- A message that opens a tool round: an assistant message carrying at
least one tool-call request (every such appended message triggers the
round block of the loop). -/
def isToolRoundTurn : Message → Bool
  | .assistant m => !m.toolCalls.isEmpty
  | _ => false

theorem runToolRound_msgs_are_tool (tools : List (String × ToolFn)) :
    ∀ (calls : List ToolCall) (msgs : List Message) (invs : List (String × String)),
      runToolRound tools calls = .ok msgs invs →
      ∀ m ∈ msgs, ∃ content cid, m = Message.tool content cid := by
  intro calls
  induction calls with
  | nil =>
    intro msgs invs h m hm
    rw [runToolRound] at h
    injection h with h1 h2
    subst h1
    simp at hm
  | cons c rest ih =>
    intro msgs invs h m hm
    rw [runToolRound] at h
    cases hlk : tools.lookup c.name with
    | none =>
      simp only [hlk] at h
      cases h
    | some f =>
      simp only [hlk] at h
      cases hrest : runToolRound tools rest with
      | crash =>
        simp only [hrest] at h
        cases h
      | ok msgs' invs' =>
        simp only [hrest] at h
        cases hfc : f c.arguments with
        | ok res =>
          simp only [hfc] at h
          injection h with h1 h2
          subst h1
          cases hm with
          | head => exact ⟨res, c.id, rfl⟩
          | tail _ hm' => exact ih msgs' invs' hrest m hm'
        | error e =>
          simp only [hfc] at h
          injection h with h1 h2
          subst h1
          exact ih msgs' invs' hrest m hm

/-- C3 (amended): the after-hook stage runs exactly once per model turn,
not once per Ask call: every run of the loop — any transport behaviour,
any number of tool rounds — extends the after-log by exactly one entry per
turn, each entry carrying that turn's response, except a final entry
carrying the terminal transport error when the retry budget is exhausted;
a run that ends (other than by fuel, or by the unregistered-tool crash
that kills the process mid-round) performed exactly (number of completed
tool rounds) + 1 turns, the rounds being the appended tool-requesting
assistant messages. -/
theorem c3_amended_after_stage_per_turn (client : ClientCfg) (cfg : AskConfig)
    (transport : Transport) :
    ∀ (fuel : Nat) (st : LoopState) (out : RawOutcome) (st2 : LoopState),
      askLoop client cfg transport fuel st = (out, st2) →
      ∃ (entries : List (Option ChatCompletion × Option String)) (newMsgs : List Message),
        st2.afterLog = st.afterLog ++ entries ∧
        st2.params.messages = st.params.messages ++ newMsgs ∧
        (∀ p ∈ entries, (∃ c, p = (some c, none)) ∨
          (∃ oc e, p = (oc, some e) ∧ out = .fail (.transport cfg.retries e) ∧
            entries.getLast? = some p)) ∧
        (out = .outOfFuel → entries.length = newMsgs.countP isToolRoundTurn) ∧
        (out ≠ .outOfFuel → out ≠ .crash →
          entries.length = newMsgs.countP isToolRoundTurn + 1) ∧
        (out = .crash → entries.length = newMsgs.countP isToolRoundTurn) := by
  intro fuel
  induction fuel with
  | zero =>
    intro st out st2 h
    rw [askLoop] at h
    injection h with hout hst
    subst hout
    subst hst
    refine ⟨[], [], by simp, by simp, by simp, by simp, ?_, ?_⟩
    · intro hne _
      exact absurd rfl hne
    · intro hcr
      cases hcr
  | succ fuel ih =>
    intro st out st2 h
    rw [askLoop] at h
    split at h
    next e tIdx' sent' heq =>
      injection h with hout hst
      subst hout
      subst hst
      refine ⟨[(st.lastComp, some e)], [], rfl, by simp, ?_, ?_, ?_, ?_⟩
      · intro p hp
        simp only [List.mem_singleton] at hp
        subst hp
        exact Or.inr ⟨st.lastComp, e, rfl, rfl, rfl⟩
      · intro hfo
        cases hfo
      · intro _ _
        simp
      · intro hcr
        cases hcr
    next comp tIdx' sent' heq =>
      split at h
      next hch =>
        injection h with hout hst
        subst hout
        subst hst
        refine ⟨[(some comp, none)], [], rfl, by simp, ?_, ?_, ?_, ?_⟩
        · intro p hp
          simp only [List.mem_singleton] at hp
          subst hp
          exact Or.inl ⟨comp, rfl⟩
        · intro hfo
          cases hfo
        · intro _ _
          simp
        · intro hcr
          cases hcr
      next choice tail hch =>
        split at h
        next htc =>
          injection h with hout hst
          subst hout
          subst hst
          refine ⟨[(some comp, none)], [Message.assistant choice], rfl, rfl, ?_, ?_, ?_, ?_⟩
          · intro p hp
            simp only [List.mem_singleton] at hp
            subst hp
            exact Or.inl ⟨comp, rfl⟩
          · intro hfo
            cases hfo
          · intro _ _
            simp [isToolRoundTurn, htc]
          · intro hcr
            cases hcr
        next c0 calls htc =>
          split at h
          next hrnd =>
            injection h with hout hst
            subst hout
            subst hst
            refine ⟨[(some comp, none)], [Message.assistant choice], rfl, rfl, ?_, ?_, ?_, ?_⟩
            · intro p hp
              simp only [List.mem_singleton] at hp
              subst hp
              exact Or.inl ⟨comp, rfl⟩
            · intro hfo
              cases hfo
            · intro _ hcr
              exact absurd rfl hcr
            · intro _
              simp [isToolRoundTurn, htc]
          next msgs invs hrnd =>
            obtain ⟨entries', newMsgs', hAfter, hMsgs, hShape, hFuel, hTerm, hCrash⟩ :=
              ih _ out st2 h
            have hmsgs0 : msgs.countP isToolRoundTurn = 0 := by
              rw [List.countP_eq_zero]
              intro m hm
              obtain ⟨content, cid, rfl⟩ :=
                runToolRound_msgs_are_tool cfg.tools _ msgs invs hrnd m hm
              simp [isToolRoundTurn]
            refine ⟨(some comp, none) :: entries',
              Message.assistant choice :: (msgs ++ newMsgs'), ?_, ?_, ?_, ?_, ?_, ?_⟩
            · simp only [hAfter]
              simp
            · simp only [hMsgs]
              simp
            · intro p hp
              cases hp with
              | head => exact Or.inl ⟨comp, rfl⟩
              | tail _ hp' =>
                cases hShape p hp' with
                | inl hl => exact Or.inl hl
                | inr hr =>
                  obtain ⟨oc, e, hpe, hout, hlast⟩ := hr
                  refine Or.inr ⟨oc, e, hpe, hout, ?_⟩
                  cases entries' with
                  | nil => exact absurd hp' (List.not_mem_nil p)
                  | cons b l => rw [List.getLast?_cons_cons]; exact hlast
            · intro ho
              have h' := hFuel ho
              simp [List.countP_cons, List.countP_append, hmsgs0, isToolRoundTurn, htc, h']
            · intro hne hcr
              have h' := hTerm hne hcr
              simp [List.countP_cons, List.countP_append, hmsgs0, isToolRoundTurn, htc, h']
            · intro ho
              have h' := hCrash ho
              simp [List.countP_cons, List.countP_append, hmsgs0, isToolRoundTurn, htc, h']

/-- The params after the tool-round turn of the `cfgToolOk` scenario. -/
def pToolRound : Params :=
  { messages := [Message.user "p",
      Message.assistant ⟨"", [⟨"call1", "t", "argtext"⟩]⟩,
      Message.tool "ok:argtext" "call1"]
    model := ""
    responseFormat := none }

/-- The final loop state of the one-round `cfgToolOk` run. -/
def stToolRunFinal : LoopState :=
  { params := { messages := pToolRound.messages ++ [Message.assistant ⟨"done", []⟩]
                model := ""
                responseFormat := none }
    lastComp := some compDone
    tIdx := 2
    sent := [pPromptP, pToolRound]
    afterLog := [(some compToolT, none), (some compDone, none)]
    invocations := [("t", "argtext")] }

theorem c3_amended_witness :
    ∃ (entries : List (Option ChatCompletion × Option String)) (newMsgs : List Message),
      stToolRunFinal.afterLog = ({ params := pPromptP } : LoopState).afterLog ++ entries ∧
      stToolRunFinal.params.messages =
        ({ params := pPromptP } : LoopState).params.messages ++ newMsgs ∧
      (∀ p ∈ entries, (∃ c, p = (some c, none)) ∨
        (∃ oc e, p = (oc, some e) ∧
          (RawOutcome.text "done") = .fail (.transport cfgToolOk.retries e) ∧
          entries.getLast? = some p)) ∧
      ((RawOutcome.text "done") = .outOfFuel →
        entries.length = newMsgs.countP isToolRoundTurn) ∧
      ((RawOutcome.text "done") ≠ .outOfFuel → (RawOutcome.text "done") ≠ .crash →
        entries.length = newMsgs.countP isToolRoundTurn + 1) ∧
      ((RawOutcome.text "done") = .crash →
        entries.length = newMsgs.countP isToolRoundTurn) :=
  c3_amended_after_stage_per_turn {} cfgToolOk trToolTurn 5 { params := pPromptP }
    (.text "done") stToolRunFinal rfl

/-! ## Claim C4: before-hook rewrites and the request actually sent -/

theorem retryDo_sent_replicate (transport : Transport) (p : Params) :
    ∀ (n tIdx : Nat) (sent : List Params), ∃ k,
      (retryDo transport p n tIdx sent).2.2 = sent ++ List.replicate k p ∧
        (n ≠ 0 → k ≠ 0) := by
  intro n
  induction n with
  | zero =>
    intro tIdx sent
    exact ⟨0, by simp [retryDo], fun h => absurd rfl h⟩
  | succ n ih =>
    intro tIdx sent
    cases ht : transport tIdx with
    | ok c =>
      exact ⟨1, by simp [retryDo, ht], fun _ => one_ne_zero⟩
    | error e =>
      by_cases h0 : n = 0
      · subst h0
        exact ⟨1, by simp [retryDo, ht], fun _ => one_ne_zero⟩
      · obtain ⟨k, hkeq, -⟩ := ih (tIdx + 1) (sent ++ [p])
        refine ⟨k + 1, ?_, fun _ => Nat.succ_ne_zero k⟩
        simp [retryDo, ht, h0, hkeq, List.replicate_succ]

theorem askLoop_sent_prefix (client : ClientCfg) (cfg : AskConfig)
    (transport : Transport) :
    ∀ (fuel : Nat) (st : LoopState),
      st.sent <+: (askLoop client cfg transport fuel st).2.sent := by
  intro fuel
  induction fuel with
  | zero => intro st; simp [askLoop]
  | succ fuel ih =>
    intro st
    obtain ⟨k, hkeq, -⟩ :=
      retryDo_sent_replicate transport st.params cfg.retries st.tIdx st.sent
    rw [askLoop]
    split
    next e tIdx' sent' heq =>
      rw [heq] at hkeq
      exact ⟨List.replicate k st.params, hkeq.symm⟩
    next comp tIdx' sent' heq =>
      rw [heq] at hkeq
      have hpre : st.sent <+: sent' := ⟨List.replicate k st.params, hkeq.symm⟩
      split
      next => exact hpre
      next choice tail =>
        split
        next => exact hpre
        next =>
          split
          next => exact hpre
          next msgs invs hrnd =>
            dsimp only
            refine List.IsPrefix.trans ?_ (ih _)
            exact hpre

theorem askLoop_sent_head (client : ClientCfg) (cfg : AskConfig)
    (transport : Transport) (fuel : Nat) (st : LoopState) (h : st.sent ≠ []) :
    ((askLoop client cfg transport fuel st).2.sent).head? = st.sent.head? := by
  obtain ⟨l, hl⟩ := askLoop_sent_prefix client cfg transport fuel st
  rw [← hl]
  cases hs : st.sent with
  | nil => exact absurd hs h
  | cons a tail => rfl

theorem askLoop_first_sent_head (client : ClientCfg) (cfg : AskConfig)
    (transport : Transport) (r fuel : Nat) (st : LoopState)
    (hr : cfg.retries = r + 1) (hsent : st.sent = []) :
    ((askLoop client cfg transport (fuel + 1) st).2.sent).head? = some st.params := by
  obtain ⟨k, hkeq, hk0⟩ :=
    retryDo_sent_replicate transport st.params cfg.retries st.tIdx st.sent
  have hk : k ≠ 0 := hk0 (by rw [hr]; exact Nat.succ_ne_zero r)
  have hhead : ∀ sentX : List Params,
      sentX = st.sent ++ List.replicate k st.params → sentX.head? = some st.params := by
    intro sX hX
    rw [hX, hsent]
    cases k with
    | zero => exact absurd rfl hk
    | succ m => rfl
  have hne : ∀ sentX : List Params,
      sentX = st.sent ++ List.replicate k st.params → sentX ≠ [] := by
    intro sX hX
    rw [hX, hsent]
    cases k with
    | zero => exact absurd rfl hk
    | succ m => simp [List.replicate_succ]
  rw [askLoop]
  split
  next e tIdx' sent' heq =>
    rw [heq] at hkeq
    exact hhead sent' hkeq
  next comp tIdx' sent' heq =>
    rw [heq] at hkeq
    split
    next => exact hhead sent' hkeq
    next choice tail =>
      split
      next => exact hhead sent' hkeq
      next =>
        split
        next => exact hhead sent' hkeq
        next msgs invs hrnd =>
          dsimp only
          refine Eq.trans (askLoop_sent_head client cfg transport fuel _ ?_)
            (hhead sent' hkeq)
          exact hne sent' hkeq

/-- The loop's behaviour does not depend on the client's hook lists: the
after-stage's fold result is discarded (`_, _ =` at the call site), so two
clients differing only in their hooks drive identical loops. -/
theorem askLoop_client_irrelevant (client1 client2 : ClientCfg) (cfg : AskConfig)
    (transport : Transport) :
    ∀ (fuel : Nat) (st : LoopState),
      askLoop client1 cfg transport fuel st = askLoop client2 cfg transport fuel st := by
  intro fuel
  induction fuel with
  | zero => intro st; rfl
  | succ fuel ih =>
    intro st
    rw [askLoop, askLoop]
    split
    next => rfl
    next =>
      split
      next => rfl
      next =>
        split
        next => rfl
        next =>
          split
          next => rfl
          next => exact ih _

/-- A before-hook that rewrites the model field of the request. -/
def hookRewriteModel : BeforeHook := fun p => { p with model := "rewritten" }

/-- A client registering the rewriting hook. -/
def clientHooked : ClientCfg :=
  { defaultModel := "orig", beforeRequest := [hookRewriteModel] }

/-- A plain Ask configuration with no tools. -/
def cfgPlain : AskConfig := { prompt := "p" }

/-- A transport that always answers at once with plain content. -/
def trDone : Transport := fun _ => .ok compDone

/-- C4 counterexample: with a registered before-hook that rewrites the
model, the request actually sent to the transport is the built request
(model `orig`), not the hook-folded request (model `rewritten`): the call
site discards the fold's result. -/
theorem c4_counterexample :
    (askFreeText clientHooked cfgPlain trDone 1).2.sent =
      [{ messages := [Message.user "p"], model := "orig", responseFormat := none }] ∧
    (applyBeforeRequestHooks clientHooked.beforeRequest
      (buildParams clientHooked.defaultModel cfgPlain .freeText)).model = "rewritten" ∧
    (askFreeText clientHooked cfgPlain trDone 1).2.sent ≠
      [applyBeforeRequestHooks clientHooked.beforeRequest
        (buildParams clientHooked.defaultModel cfgPlain .freeText)] :=
  ⟨rfl, rfl, by decide⟩

/-- C4 (amended): the before-stage is invoked once per Ask call over the
built request in registration order, but its folded result is discarded at
the call site, so the whole run is unchanged by the registered
before-hooks and the first request actually sent to the transport is the
built request itself. -/
theorem c4_amended_before_hooks_discarded (client : ClientCfg) (cfg : AskConfig)
    (mode : OutputMode) (transport : Transport) (fuel m r : Nat)
    (hr : cfg.retries = r + 1) :
    askRaw client cfg mode transport fuel =
      askRaw { client with beforeRequest := [] } cfg mode transport fuel ∧
    ((askRaw client cfg mode transport (m + 1)).2.sent).head? =
      some (buildParams client.defaultModel cfg mode) := by
  constructor
  · exact askLoop_client_irrelevant client { client with beforeRequest := [] }
      cfg transport fuel _
  · exact askLoop_first_sent_head client cfg transport r m _ hr rfl

theorem c4_amended_witness :
    askRaw clientHooked cfgPlain .freeText trDone 1 =
      askRaw { clientHooked with beforeRequest := [] } cfgPlain .freeText trDone 1 ∧
    ((askRaw clientHooked cfgPlain .freeText trDone (0 + 1)).2.sent).head? =
      some (buildParams clientHooked.defaultModel cfgPlain .freeText) :=
  c4_amended_before_hooks_discarded clientHooked cfgPlain .freeText trDone 1 0 2 rfl

/-- Transport that fails twice with distinct errors, then succeeds. -/
def trFailTwice : Transport := fun n =>
  if n = 0 then .error "e0" else if n = 1 then .error "e1" else .ok compDone

/-- Transport that always fails. -/
def trAlwaysFail : Transport := fun _ => .error "E"

/-- C5: with the default 3-attempt budget, a transport failing twice then
succeeding yields a successful Ask call after exactly 3 transport
attempts, while an always-failing transport yields the transport error
wrapped with the attempt count after exactly 3 attempts and no more. -/
theorem c5_retry_budget (client : ClientCfg) (cfg : AskConfig)
    (t1 t2 : Transport) (c : ChatCompletion) (choice : AssistantMsg)
    (e0 e1 : String) (f : Nat → String) (m : Nat)
    (hretries : cfg.retries = 3)
    (h0 : t1 0 = .error e0) (h1 : t1 1 = .error e1) (h2 : t1 2 = .ok c)
    (hc : c.choices = [choice]) (hnt : choice.toolCalls = [])
    (hf : ∀ n, t2 n = .error (f n)) :
    ((askFreeText client cfg t1 (m + 1)).1 = .ok choice.content ∧
      (askFreeText client cfg t1 (m + 1)).2.sent.length = 3) ∧
    ((askFreeText client cfg t2 (m + 1)).1 = .err (.transport 3 (f 2)) ∧
      (askFreeText client cfg t2 (m + 1)).2.sent.length = 3) := by
  constructor
  · constructor
    · simp [askFreeText, askRaw, askLoop, retryDo, hretries, h0, h1, h2, hc, hnt]
    · simp [askFreeText, askRaw, askLoop, retryDo, hretries, h0, h1, h2, hc, hnt]
  · constructor
    · simp [askFreeText, askRaw, askLoop, retryDo, hretries, hf]
    · simp [askFreeText, askRaw, askLoop, retryDo, hretries, hf]

theorem c5_witness :
    ((askFreeText {} cfgPlain trFailTwice (0 + 1)).1 = .ok "done" ∧
      (askFreeText {} cfgPlain trFailTwice (0 + 1)).2.sent.length = 3) ∧
    ((askFreeText {} cfgPlain trAlwaysFail (0 + 1)).1 = .err (.transport 3 "E") ∧
      (askFreeText {} cfgPlain trAlwaysFail (0 + 1)).2.sent.length = 3) :=
  c5_retry_budget {} cfgPlain trFailTwice trAlwaysFail compDone ⟨"done", []⟩
    "e0" "e1" (fun _ => "E") 0 rfl rfl rfl rfl rfl rfl (fun _ => rfl)

/-- Completion requesting a call of a tool that is not registered. -/
def compUnknownTool : ChatCompletion :=
  ⟨[⟨"", [⟨"call9", "missing_tool", "\x7b\x7d"⟩]⟩]⟩

/-- Transport that always requests the unknown tool. -/
def trUnknownTool : Transport := fun _ => .ok compUnknownTool

/-- C6 (code-bug evidence): a model response naming an unregistered tool
makes the driver dereference the nil interface returned by the tool map —
a runtime crash, not an error value — after a single transport call. -/
theorem c6_unknown_tool_crashes :
    (askFreeText {} cfgPlain trUnknownTool 5).1 = .crash ∧
    (askFreeText {} cfgPlain trUnknownTool 5).2.sent.length = 1 :=
  ⟨rfl, rfl⟩

/-- C7: free-text output mode attaches no response-format schema to the
request, and the result is the raw assistant content of the final turn
verbatim — `askFreeText` consults no decoder at all. -/
theorem c7_free_text_mode (client : ClientCfg) (cfg : AskConfig)
    (transport : Transport) (fuel : Nat) :
    (buildParams client.defaultModel cfg .freeText).responseFormat = none ∧
    ∀ (c : String) (st : LoopState),
      askRaw client cfg .freeText transport fuel = (.text c, st) →
        askFreeText client cfg transport fuel = (.ok c, st) := by
  refine ⟨rfl, ?_⟩
  intro c st h
  simp only [askFreeText, h]

/-- The final loop state of the one-turn `trDone` scenario. -/
def stDoneFinal : LoopState :=
  { params := { messages := [Message.user "p", Message.assistant ⟨"done", []⟩],
                model := "", responseFormat := none }
    lastComp := some compDone
    tIdx := 1
    sent := [pPromptP]
    afterLog := [(some compDone, none)]
    invocations := [] }

theorem c7_witness :
    (buildParams "" cfgPlain .freeText).responseFormat = none ∧
    askFreeText {} cfgPlain trDone 1 = (.ok "done", stDoneFinal) :=
  ⟨(c7_free_text_mode {} cfgPlain trDone 1).1,
   (c7_free_text_mode {} cfgPlain trDone 1).2 "done" stDoneFinal rfl⟩

/-- C9 (code-bug evidence): an Ask call with an empty prompt is not
rejected with a configuration error: the driver builds a user message with
empty content, performs a transport attempt carrying it, and returns the
transport's answer. -/
theorem c9_empty_prompt_not_rejected :
    (askFreeText {} { prompt := "" } trDone 1).1 = .ok "done" ∧
    (askFreeText {} { prompt := "" } trDone 1).2.sent =
      [{ messages := [Message.user ""], model := "", responseFormat := none }] :=
  ⟨rfl, rfl⟩

/-! ## Graph engine (graph file: `NewGraph`, `(*Graph).run`) -/

/-- `GraphExit`: the reserved transition that terminates the run
(the empty string in the source). -/
def GraphExit : String := ""

/-- `GraphRetry`: the reserved transition that re-invokes the same node. -/
def GraphRetry : String := "__built_in__retry"

/-- A graph node: name plus runner; the Go runner returns
`(Context, string, error)`, modelled as `Except` with the success pair
(updated context, next transition). -/
structure Node (Ctx : Type) where
  Name : String
  Runner : Ctx → Except String (Ctx × String)

/-- A constructed graph: name, node map (association list, in insertion
order) and the entry node name (the first node given). -/
structure Graph (Ctx : Type) where
  name : String
  nodes : List (String × Node Ctx)
  entrypoint : String

/-- The `nodeMap` build loop of `NewGraph`: error on the first duplicate
node name. -/
def buildNodeMap {Ctx : Type} : List (Node Ctx) → List (String × Node Ctx) →
    Except String (List (String × Node Ctx))
  | [], acc => .ok acc
  | n :: rest, acc =>
    if (acc.lookup n.Name).isSome then
      .error ("duplicate node name found: " ++ n.Name)
    else
      buildNodeMap rest (acc ++ [(n.Name, n)])

/-- `NewGraph(name, nodes...)`: zero nodes is an error; duplicate names are
an error; otherwise the graph with the first node as entrypoint. -/
def NewGraph {Ctx : Type} (name : String) (nodes : List (Node Ctx)) :
    Except String (Graph Ctx) :=
  match nodes with
  | [] => .error "graph must have at least one node"
  | first :: _ =>
    match buildNodeMap nodes [] with
    | .error e => .error e
    | .ok nodeMap => .ok { name := name, nodes := nodeMap, entrypoint := first.Name }

/-- Result of a graph run; `outOfFuel` flags that the fuel bound was hit
(the source loop has no bound: unterminated loops are the caller's
responsibility). -/
inductive RunResult (Ctx : Type) where
  | ok (c : Ctx)
  | err (msg : String)
  | outOfFuel
deriving Repr, DecidableEq

/-- The loop of `(*Graph).run`, with fuel, also counting node executions:
exit when the current name equals `GraphExit`; a missing node is an error;
a node error halts the run wrapped with the node name; the `GraphRetry`
transition keeps the current node name, any other return value becomes the
new current name; the context returned by the node is carried forward in
every case. -/
def runAux {Ctx : Type} (g : Graph Ctx) :
    Nat → String → Ctx → Nat → RunResult Ctx × Nat
  | 0, _, _, execs => (.outOfFuel, execs)
  | fuel + 1, current, c, execs =>
    if current = GraphExit then (.ok c, execs)
    else
      match g.nodes.lookup current with
      | none => (.err ("node '" ++ current ++ "' not found in graph"), execs)
      | some node =>
        match node.Runner c with
        | .error e => (.err ("failed to run node " ++ node.Name ++ ": " ++ e), execs + 1)
        | .ok (c', next) =>
          if next = GraphRetry then runAux g fuel current c' (execs + 1)
          else runAux g fuel next c' (execs + 1)

/-- `(*Graph).run(ctx, client, initialContext)`: start at the entrypoint
with the caller's initial context; returns the run result and the number
of node executions performed. -/
def Graph.run {Ctx : Type} (g : Graph Ctx) (fuel : Nat) (initialContext : Ctx) :
    RunResult Ctx × Nat :=
  runAux g fuel g.entrypoint initialContext 0

end GoaiKit

namespace GoaiKit

/-- C8: a graph consisting of one node whose runner returns the Retry
sentinel on its first two executions and Exit on the third executes that
node exactly 3 times, carrying the returned context forward into each
re-execution; the run result is the context returned by the third
execution. -/
theorem c8_retry_twice_then_exit (Ctx : Type) (gname nodeName : String)
    (r : Ctx → Ctx × String) (c0 : Ctx) (g : Graph Ctx) (fuel : Nat)
    (hname : nodeName ≠ GraphExit)
    (hg : NewGraph gname [⟨nodeName, fun c => .ok (r c)⟩] = .ok g)
    (h1 : (r c0).2 = GraphRetry)
    (h2 : (r (r c0).1).2 = GraphRetry)
    (h3 : (r (r (r c0).1).1).2 = GraphExit) :
    g.run (fuel + 4) c0 = (.ok (r (r (r c0).1).1).1, 3) := by
  have hg' : (⟨gname, [(nodeName, ⟨nodeName, fun c => Except.ok (r c)⟩)],
      nodeName⟩ : Graph Ctx) = g := by
    simpa [NewGraph, buildNodeMap] using hg
  subst hg'
  rcases hr0 : r c0 with ⟨c1, t1⟩
  rw [hr0] at h1 h2 h3
  simp only at h1 h2 h3
  rcases hr1 : r c1 with ⟨c2, t2⟩
  rw [hr1] at h2 h3
  simp only at h2 h3
  rcases hr2 : r c2 with ⟨c3, t3⟩
  rw [hr2] at h3
  simp only at h3
  subst h1
  subst h2
  subst h3
  have hname' : ¬(nodeName = "") := hname
  simp [Graph.run, runAux, hname', hr0, hr1, hr2, GraphExit, GraphRetry,
    List.lookup]

/-- Single-node counter graph: the node increments the context and retries
until the counter reaches 3. -/
def nodeCounter : Node Nat :=
  ⟨"n", fun c => .ok (c + 1, if c + 1 < 3 then GraphRetry else GraphExit)⟩

/-- The counter graph as `NewGraph "G" [nodeCounter]` constructs it. -/
def graphCounter : Graph Nat :=
  { name := "G", nodes := [("n", nodeCounter)], entrypoint := "n" }

theorem c8_witness : graphCounter.run (6 + 4) 0 = (.ok 3, 3) :=
  c8_retry_twice_then_exit Nat "G" "n"
    (fun c => (c + 1, if c + 1 < 3 then GraphRetry else GraphExit)) 0
    graphCounter 6 (by decide) rfl rfl rfl rfl

/-- C10: `NewGraph` with an empty node list returns an error for every
graph name, and every successfully constructed graph was given a nonempty
node list and has the first node as its entrypoint. -/
theorem c10_empty_graph_construction :
    (∀ (Ctx : Type) (name : String),
      @NewGraph Ctx name [] = .error "graph must have at least one node") ∧
    (∀ (Ctx : Type) (name : String) (nodes : List (Node Ctx)) (g : Graph Ctx),
      NewGraph name nodes = .ok g →
        ∃ first rest, nodes = first :: rest ∧ g.entrypoint = first.Name) := by
  constructor
  · intro Ctx name
    rfl
  · intro Ctx name nodes g hg
    cases nodes with
    | nil => simp [NewGraph] at hg
    | cons first rest =>
      refine ⟨first, rest, rfl, ?_⟩
      simp only [NewGraph] at hg
      rcases hb : buildNodeMap (first :: rest) ([] : List (String × Node Ctx)) with e | nm
      · rw [hb] at hg
        simp at hg
      · rw [hb] at hg
        simp only [Except.ok.injEq] at hg
        rw [← hg]

/-- A trivial single node for the C10 witness. -/
def nodeSimple : Node Nat := ⟨"n0", fun c => .ok (c, GraphExit)⟩

/-- The graph `NewGraph "G0" [nodeSimple]` constructs. -/
def graphSimple : Graph Nat :=
  { name := "G0", nodes := [("n0", nodeSimple)], entrypoint := "n0" }

theorem c10_witness :
    @NewGraph Nat "G0" [] = .error "graph must have at least one node" ∧
    ∃ first rest, [nodeSimple] = first :: rest ∧ graphSimple.entrypoint = first.Name :=
  ⟨c10_empty_graph_construction.1 Nat "G0",
   c10_empty_graph_construction.2 Nat "G0" [nodeSimple] graphSimple rfl⟩

end GoaiKit
